import Mathlib

/-!
A verification development for the operation-driven external API gateway:
operation catalogs loaded from a metadata store, tool-descriptor synthesis,
keyword-based tool filtering, delegated-reasoning reply parsing, argument
routing, and HTTP request execution with normalized string results.

Python strings are embedded as `List Char`; Python/JSON dynamic values as
`PyVal`; the network and the JSON decoder of the standard library are
abstracted as explicit function parameters so every embedded function stays
executable and total, with `Option` marking the exact spots where the
original code could raise an uncaught exception.
-/

namespace Gateway

/-- Characters of a Lean string literal, used to write embedded Python strings. -/
def chars (s : String) : List Char := s.data

/-- The `\x7b` brace character. -/
def lbrace : Char := Char.ofNat 123

/-- The `\x7d` brace character. -/
def rbrace : Char := Char.ofNat 125

/-- Python `str.lower()` (ASCII-adequate embedding). -/
def lowerStr (s : List Char) : List Char := s.map Char.toLower

/-- Python `str.upper()` (ASCII-adequate embedding). -/
def upperStr (s : List Char) : List Char := s.map Char.toUpper

/-- Python substring test `needle in hay`. -/
def isSubstr (needle hay : List Char) : Bool :=
  needle.isPrefixOf hay ||
    match hay with
    | [] => false
    | _ :: t => isSubstr needle t

/-- Python whitespace, as recognised by `str.strip()`. -/
def isPySpace (c : Char) : Bool :=
  c = ' ' || c = '\t' || c = '\n' || c = '\r' || c = Char.ofNat 11 || c = Char.ofNat 12

/-- Python `str.strip()`: drop leading and trailing whitespace. -/
def stripChars (s : List Char) : List Char :=
  ((s.dropWhile isPySpace).reverse.dropWhile isPySpace).reverse

/-- Embedded Python/JSON dynamic value (`None`, booleans, integers, strings,
lists, string-keyed dicts). -/
inductive PyVal where
  | none : PyVal
  | bool : Bool → PyVal
  | int : Int → PyVal
  | str : List Char → PyVal
  | list : List PyVal → PyVal
  | dict : List (List Char × PyVal) → PyVal

/-- Python truthiness of a `PyVal`. -/
def truthy : PyVal → Bool
  | .none => false
  | .bool b => b
  | .int n => n != 0
  | .str s => !s.isEmpty
  | .list xs => !xs.isEmpty
  | .dict kvs => !kvs.isEmpty

/-- Python `a or b`. -/
def pyOr (a b : PyVal) : PyVal := if truthy a then a else b

/-- First-match association-list lookup (embeds Python dict lookup; dict keys
are unique, so first-match agrees with dict semantics). -/
def lookupStr {α : Type} (kvs : List (List Char × α)) (k : List Char) : Option α :=
  match kvs with
  | [] => Option.none
  | (k', v) :: rest => if k' = k then some v else lookupStr rest k

/-- Python `d.get(k)` on an embedded dict: `None` when the value is not a
dict or the key is absent. -/
def pyDictGet (d : PyVal) (k : List Char) : PyVal :=
  match d with
  | .dict kvs => (lookupStr kvs k).getD .none
  | _ => .none

/-- Python dict item assignment `d[k] = v`: replace in place when the key is
present (keeping its original position), else append. -/
def dictInsert {α : Type} (kvs : List (List Char × α)) (k : List Char) (v : α) :
    List (List Char × α) :=
  match kvs with
  | [] => [(k, v)]
  | (k', v') :: rest =>
      if k' = k then (k', v) :: rest else (k', v') :: dictInsert rest k v

/-- Is the value an embedded dict? -/
def isDict : PyVal → Bool
  | .dict _ => true
  | _ => false

/-- One row of the operation catalog as loaded from the metadata store
(`load_api_source_and_operations` builds dicts with exactly the keys
`operation_id`, `method`, `path_template`, `summary`, `tag`,
`parameters_schema`; `summary` is defaulted to the empty string there).
The optional `resource`, `action` and `has_path_params` fields model the
extra keys that `_filter_external_tools_by_query` probes with `.get` —
no code path of the repository ever populates them, so they are `none`
for every catalog loaded by the program. -/
structure Operation where
  operation_id : List Char
  method : List Char
  path_template : List Char
  summary : List Char
  tag : Option (List Char)
  parameters_schema : PyVal
  resource : Option (List Char)
  action : Option (List Char)
  has_path_params : Option Bool

/-- Embeds `_operation_params_schema_list`: the raw JSONB column; a falsy or
non-list value yields `[]`, a list keeps exactly the dict entries whose
`name` is truthy (`isinstance(p, dict) and p.get("name")` — a non-dict
entry has no truthy `name` here, so one filter captures both tests). -/
def operationParamsSchemaList (op : Operation) : List PyVal :=
  match op.parameters_schema with
  | .list xs => xs.filter (fun p => truthy (pyDictGet p (chars "name")))
  | _ => []

/-- Embeds `(p.get("in") or "query").lower()`: `none` marks the `TypeError` Python
would raise when the `in` field holds a truthy non-string. -/
def locOfParam (p : PyVal) : Option (List Char) :=
  match pyOr (pyDictGet p (chars "in")) (.str (chars "query")) with
  | .str s => some (lowerStr s)
  | _ => Option.none

/-- Embeds `method in ("POST", "PUT", "PATCH")`. -/
def isBodyMethod (m : List Char) : Bool :=
  m == chars "POST" || m == chars "PUT" || m == chars "PATCH"

/-- One property of a synthesized tool argument schema
(`{"type": ..., "description": ...}`). -/
structure PropSpec where
  type : PyVal
  description : List Char

/-- A synthesized tool argument schema
(`{"type": "object", "properties": ..., "required": ...}`). -/
structure ToolParams where
  type : List Char
  properties : List (List Char × PropSpec)
  required : List (List Char)

/-- The `for p in params_list` loop of `_tool_parameters_from_operation`,
threading the `properties` dict and `required` list. `none` marks a Python
`TypeError` (truthy non-string `in` field, truthy non-dict `schema`); a
truthy non-string parameter name is outside this string-keyed embedding and
also maps to `none` (the catalog schema types names as strings). -/
def toolParamsLoop :
    List PyVal → List (List Char × PropSpec) → List (List Char) →
    Option (List (List Char × PropSpec) × List (List Char))
  | [], props, req => some (props, req)
  | p :: rest, props, req =>
    match locOfParam p with
    | Option.none => Option.none
    | some loc =>
      if !(loc == chars "path" || loc == chars "query") then
        toolParamsLoop rest props req
      else
        match pyDictGet p (chars "name") with
        | .str name =>
          if name.isEmpty then toolParamsLoop rest props req
          else
            match pyOr (pyDictGet p (chars "schema")) (.dict []) with
            | .dict skvs =>
              let propType := pyOr ((lookupStr skvs (chars "type")).getD .none)
                (.str (chars "string"))
              let props := dictInsert props name
                ⟨propType, loc ++ chars " parameter"⟩
              let req := if truthy (pyDictGet p (chars "required")) then
                  req ++ [name] else req
              toolParamsLoop rest props req
            | _ => Option.none
        | v => if truthy v then Option.none else toolParamsLoop rest props req

/-- The generic `request_body` property added for POST/PUT/PATCH. -/
def requestBodyProp : PropSpec :=
  ⟨.str (chars "object"), chars "JSON body for the request (optional)"⟩

/-- Embeds `_tool_parameters_from_operation`: build a tool argument schema
(properties + required) from the operation's `parameters_schema`. -/
def toolParametersFromOperation (op : Operation) : Option ToolParams :=
  match toolParamsLoop (operationParamsSchemaList op) [] [] with
  | Option.none => Option.none
  | some (props, req) =>
    let props :=
      if isBodyMethod (upperStr op.method) then
        dictInsert props (chars "request_body") requestBodyProp
      else props
    some ⟨chars "object", props, req⟩

/-- The `function` part of a synthesized tool dict. -/
structure ToolFunction where
  name : List Char
  description : List Char
  parameters : ToolParams

/-- A synthesized tool dict (`{"type": "function", "function": {...}}`). -/
structure Tool where
  type : List Char
  function : ToolFunction

/-- The tool description built by `build_dynamic_tools_from_operations`:
`f"\x7bsummary\x7d — \x7bmethod\x7d \x7bpath\x7d"` with the summary
defaulted and the whole string truncated at 300 characters. -/
def toolDescription (op : Operation) : List Char :=
  let summary :=
    let s := stripChars op.summary
    if s.isEmpty then chars "External API call" else s
  let description :=
    summary ++ chars " — " ++ upperStr op.method ++ chars " " ++
      stripChars op.path_template
  if 300 < description.length then description.take 297 ++ chars "..."
  else description

/-- Embeds `build_dynamic_tools_from_operations`: one tool per catalog operation
(operations with a falsy id are skipped), name = operation id, description
from summary/method/path truncated at 300 characters. -/
def buildDynamicToolsFromOperations : List Operation → Option (List Tool)
  | [] => some []
  | op :: rest =>
    if op.operation_id.isEmpty then buildDynamicToolsFromOperations rest
    else
      match toolParametersFromOperation op, buildDynamicToolsFromOperations rest with
      | some tp, some ts =>
        some (⟨chars "function", ⟨op.operation_id, toolDescription op, tp⟩⟩ :: ts)
      | _, _ => Option.none

/-- Fuel-driven worker for `replaceAll`. Every recursive call either strips
one character or a nonempty matched pattern (at least one character), so a
fuel of the input's length never runs out: at fuel `0` the remaining input
is already `[]`. -/
def replaceAllFuel (pat repl : List Char) : Nat → List Char → List Char
  | 0, s => s
  | fuel + 1, s =>
    if pat.isPrefixOf s && !pat.isEmpty then
      repl ++ replaceAllFuel pat repl fuel (s.drop pat.length)
    else
      match s with
      | [] => []
      | c :: t => c :: replaceAllFuel pat repl fuel t

/-- Python `str.replace(pat, repl)`: replace every non-overlapping occurrence
left to right. Only ever applied to the nonempty pattern `\x7bname\x7d`
(an empty pattern is returned unchanged, a case the source never hits). -/
def replaceAll (pat repl s : List Char) : List Char :=
  replaceAllFuel pat repl s.length s

/-- Decimal digits of an integer. -/
def intChars (n : Int) : List Char := (toString n).data

mutual

/-- Python `repr(value)` for embedded values (strings quoted with `'`,
`None`/`True`/`False` capitalised) — adequate for the catalog's
string/number payloads, which is all the program ever renders. -/
def pyRepr : PyVal → List Char
  | .none => chars "None"
  | .bool true => chars "True"
  | .bool false => chars "False"
  | .int n => intChars n
  | .str s => '\'' :: (s ++ ['\''])
  | .list xs => '[' :: (pyReprList xs ++ [']'])
  | .dict kvs => lbrace :: (pyReprDict kvs ++ [rbrace])

/-- Comma-joined `repr` of list elements. -/
def pyReprList : List PyVal → List Char
  | [] => []
  | [x] => pyRepr x
  | x :: y :: rest => pyRepr x ++ chars ", " ++ pyReprList (y :: rest)

/-- Comma-joined `repr(k): repr(v)` of dict items. -/
def pyReprDict : List (List Char × PyVal) → List Char
  | [] => []
  | [(k, v)] => pyRepr (.str k) ++ chars ": " ++ pyRepr v
  | (k, v) :: kv :: rest =>
    pyRepr (.str k) ++ chars ": " ++ pyRepr v ++ chars ", " ++
      pyReprDict (kv :: rest)

end

/-- Python `str(value)`: identity on strings, `repr`-style elsewhere. -/
def pyStr : PyVal → List Char
  | .str s => s
  | v => pyRepr v

/-- Embeds `_fill_path_template`: replace each `\x7bname\x7d` with the rendered
path-parameter value; a falsy `path_params` returns the template unchanged.
`none` marks the `AttributeError` Python raises calling `.items()` on a
truthy non-dict. -/
def fillPathTemplate (template : List Char) (path_params : PyVal) :
    Option (List Char) :=
  if !truthy path_params then some template
  else
    match path_params with
    | .dict kvs =>
      some (kvs.foldl
        (fun acc kv => replaceAll (lbrace :: (kv.1 ++ [rbrace])) (pyStr kv.2) acc)
        template)
    | _ => Option.none

/-- The query-entry filter of `_build_url`:
`v is not None and v != ""`. -/
def keepQueryVal : PyVal → Bool
  | .none => false
  | .str s => !s.isEmpty
  | _ => true

/-- Uppercase hexadecimal digit. -/
def hexDigit (n : Nat) : Char :=
  if n < 10 then Char.ofNat (48 + n) else Char.ofNat (55 + n)

/-- UTF-8 bytes of one character. -/
def utf8Bytes (c : Char) : List Nat :=
  let n := c.toNat
  if n < 128 then [n]
  else if n < 2048 then [192 + n / 64, 128 + n % 64]
  else if n < 65536 then [224 + n / 4096, 128 + n / 64 % 64, 128 + n % 64]
  else [240 + n / 262144, 128 + n / 4096 % 64, 128 + n / 64 % 64, 128 + n % 64]

/-- Embeds `urllib.parse.quote_plus`: letters, digits and `_.-~` pass through,
space becomes `+`, everything else is percent-encoded per UTF-8 byte. -/
def quotePlus (s : List Char) : List Char :=
  s.flatMap fun c =>
    if ('A' ≤ c && c ≤ 'Z') || ('a' ≤ c && c ≤ 'z') || ('0' ≤ c && c ≤ '9') ||
        c = '_' || c = '.' || c = '-' || c = '~' then [c]
    else if c = ' ' then ['+']
    else (utf8Bytes c).flatMap fun b => ['%', hexDigit (b / 16), hexDigit (b % 16)]

/-- Embeds `urllib.parse.urlencode` on a dict's items: `k=v` pairs joined by `&`,
keys and rendered values quoted. -/
def urlencodePairs : List (List Char × PyVal) → List Char
  | [] => []
  | [(k, v)] => quotePlus k ++ '=' :: quotePlus (pyStr v)
  | (k, v) :: kv :: rest =>
    quotePlus k ++ '=' :: quotePlus (pyStr v) ++ '&' :: urlencodePairs (kv :: rest)

/-- Embeds `_build_url`: base plus filled path; a truthy dict `query_params`
contributes a `?`-query built only from entries that pass `keepQueryVal`
(non-dict or falsy `query_params` contributes nothing). -/
def buildUrl (base_url path_template : List Char)
    (path_params query_params : PyVal) : Option (List Char) :=
  match fillPathTemplate path_template path_params with
  | Option.none => Option.none
  | some path =>
    let url := base_url ++ path
    match query_params with
    | .dict kvs =>
      if kvs.isEmpty then some url
      else
        let filtered := kvs.filter (fun kv => keepQueryVal kv.2)
        if filtered.isEmpty then some url
        else some (url ++ '?' :: urlencodePairs filtered)
    | _ => some url

/-- The `for p in params_list` loop of `args_to_request_parts`, threading
the `path_params`/`query_params` dicts. `none` marks the `TypeError` of
`.lower()` on a truthy non-string `in` field. A non-string parameter name
is never a key of the string-keyed argument dict, so `name not in args`
skips it. -/
def argsSplitLoop (argKvs : List (List Char × PyVal)) :
    List PyVal → List (List Char × PyVal) → List (List Char × PyVal) →
    Option (List (List Char × PyVal) × List (List Char × PyVal))
  | [], pp, qp => some (pp, qp)
  | p :: rest, pp, qp =>
    match locOfParam p with
    | Option.none => Option.none
    | some loc =>
      match pyDictGet p (chars "name") with
      | .str name =>
        match lookupStr argKvs name with
        | Option.none => argsSplitLoop argKvs rest pp qp
        | some v =>
          if loc == chars "path" then
            argsSplitLoop argKvs rest (dictInsert pp name v) qp
          else if loc == chars "query" then
            argsSplitLoop argKvs rest pp (dictInsert qp name v)
          else argsSplitLoop argKvs rest pp qp
      | _ => argsSplitLoop argKvs rest pp qp

/-- Embeds `if not isinstance(args, dict): args = \x7b\x7d`: the items of the
argument mapping, empty for a non-dict value. -/
def argsDict : PyVal → List (List Char × PyVal)
  | .dict kvs => kvs
  | _ => []

/-- Embeds `args.get("request_body") if args.get("request_body") is not None
else args.get("body")`. -/
def requestBodyFromArgs (argKvs : List (List Char × PyVal)) : PyVal :=
  match (lookupStr argKvs (chars "request_body")).getD .none with
  | .none => (lookupStr argKvs (chars "body")).getD .none
  | v => v

/-- Embeds `args_to_request_parts`: split flat tool-call args into
`(path_params, query_params, request_body)` guided by the operation's
`parameters_schema`; a non-dict `args` is replaced by `\x7b\x7d`;
`request_body` comes from the `request_body` key when not `None`, else
from `body`. -/
def argsToRequestParts (operation : Operation) (args : PyVal) :
    Option (List (List Char × PyVal) × List (List Char × PyVal) × PyVal) :=
  match argsSplitLoop (argsDict args) (operationParamsSchemaList operation) [] [] with
  | Option.none => Option.none
  | some (pp, qp) => some (pp, qp, requestBodyFromArgs (argsDict args))

/-- An outbound HTTP request as assembled by `execute_external_api`. -/
structure HttpRequest where
  url : List Char
  method : List Char
  headers : List (List Char × List Char)
  body : Option (List Char)

/-- The observable outcome of `urlopen` on one request: a success body, an
`HTTPError` with status/reason/error body, or a `URLError` with a reason
(DNS, connection refused, timeout). -/
inductive HttpOutcome where
  | success (body : List Char)
  | httpError (code : Nat) (reason : List Char) (body : List Char)
  | urlError (reason : List Char)

/-- The `path_params`/`query_params` coercion of `execute_external_api`:
`v = v or \x7b\x7d`, then a string is JSON-decoded with a decode failure
yielding the empty dict. The standard library's `json.loads` is the
abstract parameter `loads` (`none` = `JSONDecodeError`). -/
def coerceParams (loads : List Char → Option PyVal) (v : PyVal) : PyVal :=
  match pyOr v (.dict []) with
  | .str s =>
    match loads s with
    | some d => d
    | Option.none => .dict []
  | v' => v'

/-- The `request_body` coercion of `execute_external_api`: a non-`None`
string is JSON-decoded when non-blank; blank or undecodable strings become
`None`. -/
def coerceBody (loads : List Char → Option PyVal) (rb : PyVal) : PyVal :=
  match rb with
  | .str s =>
    if (stripChars s).isEmpty then .none
    else
      match loads s with
      | some v => v
      | Option.none => .none
  | v => v

/-- Backslash-escaping of `"` and `\` inside a JSON string literal. -/
def jsonEscape (s : List Char) : List Char :=
  s.flatMap fun c => if c = '"' || c = '\\' then ['\\', c] else [c]

mutual

/-- Embeds `json.dumps` for embedded values (string escaping limited to `"` and
`\`, which covers every payload this program serialises). -/
def pyJsonDumps : PyVal → List Char
  | .none => chars "null"
  | .bool true => chars "true"
  | .bool false => chars "false"
  | .int n => intChars n
  | .str s => '"' :: (jsonEscape s ++ ['"'])
  | .list xs => '[' :: (pyJsonDumpsList xs ++ [']'])
  | .dict kvs => lbrace :: (pyJsonDumpsDict kvs ++ [rbrace])

/-- Comma-joined JSON list elements. -/
def pyJsonDumpsList : List PyVal → List Char
  | [] => []
  | [x] => pyJsonDumps x
  | x :: y :: rest => pyJsonDumps x ++ chars ", " ++ pyJsonDumpsList (y :: rest)

/-- Comma-joined JSON object members. -/
def pyJsonDumpsDict : List (List Char × PyVal) → List Char
  | [] => []
  | [(k, v)] => pyJsonDumps (.str k) ++ chars ": " ++ pyJsonDumps v
  | (k, v) :: kv :: rest =>
    pyJsonDumps (.str k) ++ chars ": " ++ pyJsonDumps v ++ chars ", " ++
      pyJsonDumpsDict (kv :: rest)

end

/-- The `try/except` tail of `execute_external_api`: the success body; on
`HTTPError` the error body, or `HTTP <code>: <reason>` when that body is
empty (`e.read().decode(...) or f"HTTP ..."`); on `URLError` the
`Request failed: <reason>` message. -/
def outcomeToResultString : HttpOutcome → List Char
  | .success b => b
  | .httpError code reason b =>
    if b.isEmpty then chars "HTTP " ++ intChars code ++ chars ": " ++ reason
    else b
  | .urlError reason => chars "Request failed: " ++ reason

/-- The unknown-operation result of `execute_external_api`. -/
def unknownOperationMessage (operation_id : List Char) : List Char :=
  chars "Unknown operation_id: " ++ operation_id

/-- Embeds `execute_external_api`: execute one call against the catalog. The
network is the abstract parameter `fetch`; the JSON decoder is `loads`.
The result is `some` of the returned string — the raw success body, the
HTTP-error body (or `HTTP <code>: <reason>` when that body is empty), the
`Request failed: <reason>` network-failure message, or the
`Unknown operation_id` message — and `Option.none` marks the uncaught
exception Python raises when the coerced `path_params` is a truthy
non-mapping (`.items()` on a non-dict in `_fill_path_template`). -/
def executeExternalApi (loads : List Char → Option PyVal)
    (fetch : HttpRequest → HttpOutcome) (base_url : List Char)
    (bearer_token : Option (List Char))
    (operations_by_id : List (List Char × Operation)) (operation_id : List Char)
    (path_params query_params request_body : PyVal) : Option (List Char) :=
  match lookupStr operations_by_id operation_id with
  | Option.none => some (unknownOperationMessage operation_id)
  | some op =>
    let pp := coerceParams loads path_params
    let qp := coerceParams loads query_params
    let rb := coerceBody loads request_body
    match buildUrl base_url op.path_template pp qp with
    | Option.none => Option.none
    | some url =>
      let method := upperStr op.method
      let headers := [(chars "Accept", chars "application/json")]
      let headers :=
        match bearer_token with
        | some tok =>
          if tok.isEmpty then headers
          else headers ++ [(chars "Authorization", chars "Bearer " ++ tok)]
        | Option.none => headers
      let hasBody := (match rb with | .none => false | _ => true) &&
        isBodyMethod method
      let headers :=
        if hasBody then headers ++ [(chars "Content-Type", chars "application/json")]
        else headers
      let body := if hasBody then some (pyJsonDumps rb) else Option.none
      some (outcomeToResultString (fetch ⟨url, method, headers, body⟩))

/-- The result shape of the delegated-reasoning resolvers: the dict
`\x7b"operation_id": ..., "path_params": ..., "query_params": ...,
"request_body": ...\x7d`. -/
structure ResolvedCall where
  operation_id : PyVal
  path_params : PyVal
  query_params : PyVal
  request_body : PyVal

/-- Python `text.find(c)` for a single character: first index or `-1`. -/
def pyFindChar : List Char → Char → Int
  | [], _ => -1
  | c' :: t, c =>
    if c' = c then 0
    else
      let r := pyFindChar t c
      if r < 0 then -1 else r + 1

/-- Python `text.rfind(c)` for a single character: last index or `-1`. -/
def pyRfindChar (s : List Char) (c : Char) : Int :=
  let r := pyFindChar s.reverse c
  if r < 0 then -1 else (s.length : Int) - 1 - r

/-- Python `text[a:b]` for `0 ≤ a ≤ b` (the only way the source slices). -/
def sliceChars (s : List Char) (a b : Int) : List Char :=
  (s.drop a.toNat).take (b.toNat - a.toNat)

/-- The code-fence tolerance of both resolvers: when the reply contains
` ``` `, keep the substring from the first `\x7b` to the last `\x7d`
(inclusive) provided that range is non-degenerate. -/
def extractJsonText (text : List Char) : List Char :=
  if isSubstr (chars "```") text then
    let start := pyFindChar text lbrace
    let stop := pyRfindChar text rbrace + 1
    if 0 ≤ start ∧ start < stop then sliceChars text start stop else text
  else text

/-- The shared reply handling of `resolve_operation_with_openai` /
`resolve_operation_with_ollama`: strip the (possibly `None`) message
content, tolerate a code fence, JSON-decode, demand a truthy
`operation_id`, and default falsy `path_params`/`query_params` to the
empty dict. Any decode failure (`loads` = `none`, caught by the blanket
`except`) yields no resolution. -/
def resolveReply (loads : List Char → Option PyVal) (content : Option (List Char)) :
    Option ResolvedCall :=
  (loads (extractJsonText (stripChars (content.getD [])))).bind fun data =>
    if !truthy (pyDictGet data (chars "operation_id")) then Option.none
    else
      some ⟨pyDictGet data (chars "operation_id"),
        pyOr (pyDictGet data (chars "path_params")) (.dict []),
        pyOr (pyDictGet data (chars "query_params")) (.dict []),
        pyDictGet data (chars "request_body")⟩

/-- Embeds `resolve_operation_with_ollama`: the chat transport is abstracted as
`chatResult` (`none` = transport exception, `some content` = the reply's
possibly-`None` message content). -/
def resolveOperationWithOllama (loads : List Char → Option PyVal)
    (operations_list : List Operation)
    (chatResult : Option (Option (List Char))) : Option ResolvedCall :=
  if operations_list.isEmpty then Option.none
  else
    match chatResult with
    | Option.none => Option.none
    | some content => resolveReply loads content

/-- Embeds `resolve_operation_with_openai`: as the local variant, with the extra
requirement of a truthy API key. -/
def resolveOperationWithOpenai (loads : List Char → Option PyVal)
    (api_key : Option (List Char)) (operations_list : List Operation)
    (chatResult : Option (Option (List Char))) : Option ResolvedCall :=
  match api_key with
  | Option.none => Option.none
  | some k =>
    if k.isEmpty then Option.none
    else if operations_list.isEmpty then Option.none
    else
      match chatResult with
      | Option.none => Option.none
      | some content => resolveReply loads content

/-- Embeds `_EXTERNAL_API_KEYWORD_TO_MATCH`: query keyword → (substrings for the
fallback match, preferred resource). -/
def EXTERNAL_API_KEYWORD_TO_MATCH :
    List (List Char × (List (List Char) × Option (List Char))) :=
  [(chars "airport", ([chars "airport", chars "airports"], some (chars "airports"))),
   (chars "passenger", ([chars "passenger", chars "passengers"], some (chars "passengers"))),
   (chars "hotel", ([chars "hotel", chars "hotels"], some (chars "hotels"))),
   (chars "flytel", ([chars "flytel"], Option.none)),
   (chars "flight", ([chars "flight", chars "flights"], Option.none)),
   (chars "dashboard", ([chars "dashboard"], Option.none)),
   (chars "settings", ([chars "settings"], Option.none))]

/-- Embeds `_LIST_INTENT_PHRASES`. -/
def LIST_INTENT_PHRASES : List (List Char) :=
  [chars "list", chars "get me the list", chars "show all", chars "all the",
   chars "list of"]

/-- Embeds `(op.get("resource") or "").strip().lower() if op.get("resource") else None`
on `operations_by_id.get(name) or \x7b\x7d`. -/
def resourceOfOp (opOpt : Option Operation) : Option (List Char) :=
  match opOpt with
  | Option.none => Option.none
  | some op =>
    match op.resource with
    | some s => if s.isEmpty then Option.none else some (lowerStr (stripChars s))
    | Option.none => Option.none

/-- The same normalisation for the `action` column. -/
def actionOfOp (opOpt : Option Operation) : Option (List Char) :=
  match opOpt with
  | Option.none => Option.none
  | some op =>
    match op.action with
    | some s => if s.isEmpty then Option.none else some (lowerStr (stripChars s))
    | Option.none => Option.none

/-- Embeds `op.get("has_path_params", "\x7b" in (op.get("path_template") or ""))`. -/
def hasPathParamsOfOp (opOpt : Option Operation) : Bool :=
  match opOpt with
  | Option.none => false
  | some op =>
    match op.has_path_params with
    | some b => b
    | Option.none => isSubstr [lbrace] op.path_template

/-- Embeds `(op.get("summary") or "").lower()`. -/
def summaryLowerOfOp (opOpt : Option Operation) : List Char :=
  match opOpt with
  | Option.none => []
  | some op => lowerStr op.summary

/-- The per-tool body of the `for t in tools` loop of
`_filter_external_tools_by_query`: `true` iff the tool is appended to
`filtered`. The fallback substring match tests each lower-case keyword
against `f"\x7bname\x7d \x7bsummary\x7d"` — the tool name is NOT
lower-cased there, exactly as in the source. -/
def toolMatchesQuery (wantList : Bool) (matchSubstrings : List (List Char))
    (wantedResources : List (List Char))
    (opsById : List (List Char × Operation)) (t : Tool) : Bool :=
  let name := t.function.name
  let opOpt := lookupStr opsById name
  let resource := resourceOfOp opOpt
  let action := actionOfOp opOpt
  let hasPathParams := hasPathParamsOfOp opOpt
  let substrOk := matchSubstrings.any
    (fun sub => isSubstr sub (name ++ ' ' :: summaryLowerOfOp opOpt))
  let stage1 :=
    if !wantedResources.isEmpty then
      match resource with
      | some r =>
        if r.isEmpty then substrOk else wantedResources.contains r
      | Option.none => substrOk
    else substrOk
  if !stage1 then false
  else if wantList then
    (match action with
     | some a => a == chars "list" || a == chars "list_scoped"
     | Option.none => false) || !hasPathParams
  else true

/-- The keyword classification of `_filter_external_tools_by_query`: the
matched keyword rows of the table, in table order. -/
def matchedKeywordRows (userLower : List Char) :
    List (List Char × (List (List Char) × Option (List Char))) :=
  EXTERNAL_API_KEYWORD_TO_MATCH.filter (fun kv => isSubstr kv.1 userLower)

/-- The `match_substrings` list accumulated over the matched keyword rows
(`match_substrings.extend(subs)` in table order). -/
def keywordMatchSubstrings (userLower : List Char) : List (List Char) :=
  (matchedKeywordRows userLower).foldl (fun acc kv => acc ++ kv.2.1) []

/-- The `wanted_resources` set accumulated over the matched keyword rows
(kept as a list; only membership is ever used). -/
def keywordWantedResources (userLower : List Char) : List (List Char) :=
  (matchedKeywordRows userLower).filterMap (fun kv => kv.2.2)

/-- The `filtered` list the function builds in its main branch. -/
def filterCandidates (tools : List Tool) (user_input : List Char)
    (opsById : List (List Char × Operation)) : List Tool :=
  tools.filter (toolMatchesQuery
    (LIST_INTENT_PHRASES.any (fun p => isSubstr p (lowerStr user_input)))
    (keywordMatchSubstrings (lowerStr user_input))
    (keywordWantedResources (lowerStr user_input)) opsById)

/-- Embeds `_filter_external_tools_by_query`: restrict the tool list by the user
intent, falling back to the unfiltered list when nothing is classified or
nothing survives. -/
def filterExternalToolsByQuery (tools : List Tool) (user_input : List Char)
    (opsById : List (List Char × Operation)) : List Tool :=
  if user_input.isEmpty || opsById.isEmpty then tools
  else if (keywordMatchSubstrings (lowerStr user_input)).isEmpty &&
      (keywordWantedResources (lowerStr user_input)).isEmpty then tools
  else if (filterCandidates tools user_input opsById).isEmpty then tools
  else filterCandidates tools user_input opsById

/-! Spec-side definitions: the data model of the specification
(ParameterSpec with a typed location), written from the spec's words, to be
compared with the source-translated functions above. -/

/-- The spec's ParameterSpec: `\x7bname, location, required, type_hint\x7d`
(`location` kept as a free lower-case string so that locations other than
`path`/`query` can be shown to be excluded). -/
structure ParameterSpec where
  name : List Char
  location : List Char
  required : Bool
  type_hint : Option (List Char)

/-- How one ParameterSpec is stored in the catalog's `parameters_schema`
JSONB (the ingestion job writes `\x7b"name", "in", "required", "schema"\x7d`
per parameter, with the type inside `schema`). -/
def encodeParam (p : ParameterSpec) : PyVal :=
  .dict [(chars "name", .str p.name),
         (chars "in", .str p.location),
         (chars "required", .bool p.required),
         (chars "schema",
           match p.type_hint with
           | some t => .dict [(chars "type", .str t)]
           | Option.none => .none)]

/-- A catalog operation whose `parameters_schema` encodes the given
ParameterSpecs, with no tool-selection columns (as loaded by
`load_api_source_and_operations`). -/
def mkCatalogOp (oid method path summary : List Char)
    (ps : List ParameterSpec) : Operation :=
  ⟨oid, method, path, summary, Option.none, .list (ps.map encodeParam),
    Option.none, Option.none, Option.none⟩

/-- Sanity conditions of the spec's data model: parameter names are
non-empty strings, unique, and distinct from the reserved `request_body`
key; locations are non-empty lower-case strings; a present type hint is
non-empty. -/
def WellFormedSpecParams (ps : List ParameterSpec) : Prop :=
  (∀ p ∈ ps, p.name ≠ [] ∧ p.location ≠ [] ∧ lowerStr p.location = p.location ∧
    p.type_hint ≠ some []) ∧
  (ps.map (·.name)).Nodup ∧ chars "request_body" ∉ ps.map (·.name)

/-- Spec words (§4.2): the argument schema lists exactly the operation's
path/query parameters as top-level keys, each typed by its
`type_hint` defaulted to `string`. -/
def specToolProperties (ps : List ParameterSpec) : List (List Char × PropSpec) :=
  (ps.filter (fun p => p.location == chars "path" || p.location == chars "query")).map
    (fun p => (p.name,
      ⟨.str (p.type_hint.getD (chars "string")), p.location ++ chars " parameter"⟩))

/-- Spec words (§4.2): `required` marks exactly the listed parameters whose
spec has the flag set. -/
def specToolRequired (ps : List ParameterSpec) : List (List Char) :=
  ((ps.filter (fun p => p.location == chars "path" || p.location == chars "query")).filter
    (fun p => p.required)).map (·.name)

/-- Spec words (§4.2): per-operation argument schema — the path/query
properties plus a generic `request_body` key exactly when the method is
POST/PUT/PATCH. -/
def specToolParameters (ps : List ParameterSpec) (method : List Char) : ToolParams :=
  ⟨chars "object",
    specToolProperties ps ++
      (if isBodyMethod method then [(chars "request_body", requestBodyProp)] else []),
    specToolRequired ps⟩

/-- Spec words (§4.4): the path components of `split` — each path-located
ParameterSpec whose value is present in the flat args, with that value;
entries absent from the flat args are ignored. -/
def specPathParams (ps : List ParameterSpec) (argKvs : List (List Char × PyVal)) :
    List (List Char × PyVal) :=
  ps.filterMap fun p =>
    if p.location == chars "path" then
      (lookupStr argKvs p.name).map (fun v => (p.name, v))
    else Option.none

/-- Spec words (§4.4): the query components of `split`. -/
def specQueryParams (ps : List ParameterSpec) (argKvs : List (List Char × PyVal)) :
    List (List Char × PyVal) :=
  ps.filterMap fun p =>
    if p.location == chars "query" then
      (lookupStr argKvs p.name).map (fun v => (p.name, v))
    else Option.none

/-! Concrete fixtures used by the closed theorems and witnesses. -/

/-- Fixture `Settings_GetAirports`: `GET /airports`, no parameters, empty summary. -/
def opGetAirports : Operation :=
  ⟨chars "Settings_GetAirports", chars "GET", chars "/airports", [],
    Option.none, .none, Option.none, Option.none, Option.none⟩

/-- Fixture `Airports_GetPassengers`: `GET /airports/\x7bairportId\x7d/passengers`
with one required `airportId` path parameter, empty summary. -/
def opGetPassengers : Operation :=
  ⟨chars "Airports_GetPassengers", chars "GET",
    chars "/airports/\x7bairportId\x7d/passengers", [], Option.none,
    .list [.dict [(chars "name", .str (chars "airportId")),
                  (chars "in", .str (chars "path")),
                  (chars "required", .bool true),
                  (chars "schema", .dict [(chars "type", .str (chars "string"))])]],
    Option.none, Option.none, Option.none⟩

/-- The two-operation catalog mapping of the keyword-strategy test. -/
def opsByIdC1 : List (List Char × Operation) :=
  [(chars "Settings_GetAirports", opGetAirports),
   (chars "Airports_GetPassengers", opGetPassengers)]

/-- The tool synthesized for `opGetAirports`. -/
def toolGetAirports : Tool :=
  ⟨chars "function",
    ⟨chars "Settings_GetAirports", chars "External API call — GET /airports",
      ⟨chars "object", [], []⟩⟩⟩

/-- The tool synthesized for `opGetPassengers`. -/
def toolGetPassengers : Tool :=
  ⟨chars "function",
    ⟨chars "Airports_GetPassengers",
      chars "External API call — GET /airports/\x7bairportId\x7d/passengers",
      ⟨chars "object",
        [(chars "airportId", ⟨.str (chars "string"), chars "path parameter"⟩)],
        [chars "airportId"]⟩⟩⟩

/-- A one-operation catalog for executor tests: `GET /ping`. -/
def opPing : Operation :=
  ⟨chars "Ping", chars "GET", chars "/ping", [], Option.none, .none,
    Option.none, Option.none, Option.none⟩

/-- Catalog mapping holding only `opPing`. -/
def opsPing : List (List Char × Operation) := [(chars "Ping", opPing)]

/-- A network that always answers HTTP 404 with body
`\x7b"error":"not found"\x7d`. -/
def fetch404 : HttpRequest → HttpOutcome :=
  fun _ => .httpError 404 (chars "Not Found") (chars "\x7b\"error\":\"not found\"\x7d")

/-- A network that always succeeds with body `ok`. -/
def fetchOk : HttpRequest → HttpOutcome :=
  fun _ => .success (chars "ok")

/-- A JSON decoder that fails on every input. -/
def loadsNone : List Char → Option PyVal := fun _ => Option.none

/-- A JSON decoder defined on the single document `5` (as Python's
`json.loads("5")`, which returns the number `5`). -/
def loadsNum5 : List Char → Option PyVal :=
  fun s => if s = chars "5" then some (.int 5) else Option.none

/-- The fenced delegated-reasoning reply of the resolver test. -/
def fencedReplyC3 : List Char :=
  chars "```json\n\x7b\"operation_id\":\"Settings_GetHotels\",\"path_params\":\x7b\x7d,\"query_params\":\x7b\x7d,\"request_body\":null\x7d\n```"

/-- The substring of `fencedReplyC3` between its first `\x7b` and its last
`\x7d` (inclusive). -/
def hotelInnerC3 : List Char :=
  chars "\x7b\"operation_id\":\"Settings_GetHotels\",\"path_params\":\x7b\x7d,\"query_params\":\x7b\x7d,\"request_body\":null\x7d"

/-- The JSON object `hotelInnerC3` denotes. -/
def hotelObjC3 : PyVal :=
  .dict [(chars "operation_id", .str (chars "Settings_GetHotels")),
         (chars "path_params", .dict []),
         (chars "query_params", .dict []),
         (chars "request_body", .none)]

/-- A JSON decoder defined on the single document `hotelInnerC3`. -/
def loadsC3 : List Char → Option PyVal :=
  fun s => if s = hotelInnerC3 then some hotelObjC3 else Option.none

/-- A reply whose `path_params` is the number `5` (no code fence). -/
def replyC10 : List Char :=
  chars "\x7b\"operation_id\":\"X\",\"path_params\":5\x7d"

/-- The JSON object `replyC10` denotes. -/
def objC10 : PyVal :=
  .dict [(chars "operation_id", .str (chars "X")), (chars "path_params", .int 5)]

/-- A JSON decoder defined on the single document `replyC10`. -/
def loadsC10 : List Char → Option PyVal :=
  fun s => if s = replyC10 then some objC10 else Option.none

/-- Predicate: `path_params` is falsy or a mapping (the domain where
`_fill_path_template` cannot raise). -/
def DictOrFalsy (v : PyVal) : Prop :=
  truthy v = false ∨ isDict v = true

/-- The ResolvedCall denoted by the fenced hotel reply. -/
def hotelCallC3 : ResolvedCall :=
  ⟨.str (chars "Settings_GetHotels"), .dict [], .dict [], .none⟩

/-- The ResolvedCall produced from `replyC10`. -/
def callC10 : ResolvedCall :=
  ⟨.str (chars "X"), .int 5, .dict [], .none⟩

/-- One catalog row of the spec's data model: an operation identified by
id/method/path/summary whose parameters are typed ParameterSpecs. -/
structure CatalogRow where
  oid : List Char
  method : List Char
  path : List Char
  summary : List Char
  params : List ParameterSpec

/-- The catalog Operation a row denotes. -/
def rowOp (r : CatalogRow) : Operation :=
  mkCatalogOp r.oid r.method r.path r.summary r.params

/-- Spec words (§4.2): the ToolDescriptor synthesized for one row — named by
the operation id, with the spec-side per-operation argument schema. -/
def rowTool (r : CatalogRow) : Tool :=
  ⟨chars "function",
    ⟨r.oid, toolDescription (rowOp r), specToolParameters r.params (upperStr r.method)⟩⟩

/-- A concrete row: `Airports_GetPassengers` with one required `airportId`
path parameter. -/
def rowPassengers : CatalogRow :=
  ⟨chars "Airports_GetPassengers", chars "GET",
    chars "/airports/\x7bairportId\x7d/passengers", [],
    [⟨chars "airportId", chars "path", true, some (chars "string")⟩]⟩

/-- A concrete flat argument mapping carrying `airportId` plus an unknown
key. -/
def passengersArgs : PyVal :=
  .dict [(chars "airportId", .str (chars "A1")),
         (chars "unrelated", .int 7)]

/-! Helper lemmas shared by the claim theorems. -/

/-- A string `path_params`/`query_params` whose JSON decoding fails is
coerced to the empty dict. -/
theorem coerceParams_str_of_none {loads : List Char → Option PyVal}
    {s : List Char} (hs : loads s = Option.none) :
    coerceParams loads (.str s) = .dict [] := by
  cases s with
  | nil => rfl
  | cons c t => simp [coerceParams, pyOr, truthy, List.isEmpty, hs]

/-- The empty dict is coerced to itself. -/
theorem coerceParams_dict_nil (loads : List Char → Option PyVal) :
    coerceParams loads (.dict []) = .dict [] := rfl

/-- With a falsy-or-mapping `path_params`, URL building always succeeds. -/
theorem buildUrl_some {pp : PyVal} (hpp : DictOrFalsy pp)
    (base tpl : List Char) (qp : PyVal) :
    ∃ u, buildUrl base tpl pp qp = some u := by
  have hfill : ∃ path, fillPathTemplate tpl pp = some path := by
    rcases hpp with h | h
    · exact ⟨tpl, by simp [fillPathTemplate, h]⟩
    · cases pp
      case dict kvs =>
        by_cases ht : truthy (.dict kvs) <;> simp [fillPathTemplate, ht]
      all_goals simp [isDict] at h
  obtain ⟨path, hpath⟩ := hfill
  unfold buildUrl
  rw [hpath]
  dsimp only
  cases qp
  case dict kvs =>
    by_cases h1 : kvs.isEmpty
    · exact ⟨base ++ path, by simp [h1]⟩
    · by_cases h2 : (kvs.filter (fun kv => keepQueryVal kv.2)).isEmpty
      · exact ⟨base ++ path, by simp [h1, h2]⟩
      · exact ⟨base ++ path ++ '?' :: urlencodePairs
            (kvs.filter (fun kv => keepQueryVal kv.2)), by simp [h1, h2]⟩
  all_goals exact ⟨base ++ path, rfl⟩

/-- With a present operation and a falsy-or-mapping coerced `path_params`,
execution always reaches the network and returns the normalized outcome
string of the assembled request. -/
theorem executeExternalApi_run
    (loads : List Char → Option PyVal) (fetch : HttpRequest → HttpOutcome)
    (base : List Char) (bearer : Option (List Char))
    (opsById : List (List Char × Operation)) (oid : List Char)
    (pp qp rb : PyVal) (op : Operation)
    (hop : lookupStr opsById oid = some op)
    (hpp : DictOrFalsy (coerceParams loads pp)) :
    ∃ req, executeExternalApi loads fetch base bearer opsById oid pp qp rb =
      some (outcomeToResultString (fetch req)) := by
  obtain ⟨u, hu⟩ :=
    buildUrl_some hpp base op.path_template (coerceParams loads qp)
  unfold executeExternalApi
  rw [hop]
  dsimp only
  rw [hu]
  exact ⟨_, rfl⟩

/-! Claim theorems. -/

/-- C1. For the two-operation catalog (`Settings_GetAirports`: GET
`/airports`; `Airports_GetPassengers`: GET
`/airports/\x7bairportId\x7d/passengers`) and the utterance
"list of airports", the keyword strategy does NOT restrict the tool set to
`Settings_GetAirports`: the case-sensitive fallback substring match against
the un-lower-cased operation ids matches no tool, the candidate list comes
out empty, and the function falls back to the whole two-tool set. -/
theorem keyword_filter_list_of_airports_not_restricted :
    buildDynamicToolsFromOperations [opGetAirports, opGetPassengers] =
      some [toolGetAirports, toolGetPassengers] ∧
    filterCandidates [toolGetAirports, toolGetPassengers]
      (chars "list of airports") opsByIdC1 = [] ∧
    filterExternalToolsByQuery [toolGetAirports, toolGetPassengers]
      (chars "list of airports") opsByIdC1 =
      [toolGetAirports, toolGetPassengers] ∧
    filterExternalToolsByQuery [toolGetAirports, toolGetPassengers]
      (chars "list of airports") opsByIdC1 ≠ [toolGetAirports] := by
  refine ⟨rfl, rfl, rfl, fun h => ?_⟩
  rw [show filterExternalToolsByQuery [toolGetAirports, toolGetPassengers]
      (chars "list of airports") opsByIdC1 =
      [toolGetAirports, toolGetPassengers] from rfl] at h
  exact absurd (congrArg List.length h) (by simp)

/-- C6. URL construction: filling `/airports/\x7bid\x7d/passengers` with
`id = "42"` yields `/airports/42/passengers`; an unresolved placeholder is
left verbatim (both for a partial mapping and for the falsy empty mapping);
the query string keeps only entries whose value is neither `None` nor the
empty string (`limit = ""` and `opt = None` are dropped, `page = "2"`
stays). -/
theorem url_construction_examples :
    fillPathTemplate (chars "/airports/\x7bid\x7d/passengers")
      (.dict [(chars "id", .str (chars "42"))]) =
      some (chars "/airports/42/passengers") ∧
    fillPathTemplate (chars "/a/\x7bx\x7d/\x7by\x7d")
      (.dict [(chars "x", .str (chars "1"))]) = some (chars "/a/1/\x7by\x7d") ∧
    (∀ tpl, fillPathTemplate tpl (.dict []) = some tpl) ∧
    buildUrl (chars "https://api.example.com") (chars "/airports") (.dict [])
      (.dict [(chars "limit", .str []), (chars "page", .str (chars "2")),
              (chars "opt", .none)]) =
      some (chars "https://api.example.com/airports?page=2") :=
  ⟨rfl, rfl, fun _ => rfl, rfl⟩

/-- C2 (counterexample). The executor can let an exception escape: with the
string `"5"` as `path_params` — valid JSON denoting the number 5 — the
coercion leaves a truthy non-mapping and `_fill_path_template` raises an
uncaught `AttributeError` calling `.items()` on it (`Option.none` in this
embedding), so not every input yields a string result. -/
theorem execute_raises_on_numeric_path_params :
    executeExternalApi loadsNum5 fetchOk (chars "https://api.example.com")
      Option.none opsPing (chars "Ping") (.str (chars "5")) (.dict []) .none =
      Option.none := rfl

/-- C2 (amended). For every input whose `path_params` — after JSON decoding
when supplied as a string — is a mapping or falsy, the executor never lets
an exception escape: on success it returns the raw body; on an HTTP error
it returns the error body when non-empty and else `HTTP <code>: <reason>`;
on a network failure it returns `Request failed: <reason>`; and an
HTTP 404 whose body is `\x7b"error":"not found"\x7d` is returned verbatim. -/
theorem execute_normalizes_outcomes_of_mapping_path_params
    (loads : List Char → Option PyVal) (fetch : HttpRequest → HttpOutcome)
    (base : List Char) (bearer : Option (List Char))
    (opsById : List (List Char × Operation)) (oid : List Char)
    (pp qp rb : PyVal) (op : Operation)
    (hop : lookupStr opsById oid = some op)
    (hpp : DictOrFalsy (coerceParams loads pp)) :
    (executeExternalApi loads fetch base bearer opsById oid pp qp rb).isSome = true ∧
    (∃ req : HttpRequest,
      (∀ b, fetch req = .success b →
        executeExternalApi loads fetch base bearer opsById oid pp qp rb = some b) ∧
      (∀ code reason b, fetch req = .httpError code reason b → b ≠ [] →
        executeExternalApi loads fetch base bearer opsById oid pp qp rb = some b) ∧
      (∀ code reason, fetch req = .httpError code reason [] →
        executeExternalApi loads fetch base bearer opsById oid pp qp rb =
          some (chars "HTTP " ++ intChars code ++ chars ": " ++ reason)) ∧
      (∀ reason, fetch req = .urlError reason →
        executeExternalApi loads fetch base bearer opsById oid pp qp rb =
          some (chars "Request failed: " ++ reason))) ∧
    executeExternalApi loadsNone fetch404 (chars "https://api.example.com")
      Option.none opsPing (chars "Ping") (.dict []) (.dict []) .none =
      some (chars "\x7b\"error\":\"not found\"\x7d") := by
  obtain ⟨req, hrun⟩ :=
    executeExternalApi_run loads fetch base bearer opsById oid pp qp rb op hop hpp
  refine ⟨by rw [hrun]; rfl, ⟨req, ?_, ?_, ?_, ?_⟩, rfl⟩
  · intro b hb; rw [hrun, hb]; rfl
  · intro code reason b hb hne
    rw [hrun, hb]
    cases b with
    | nil => exact absurd rfl hne
    | cons c t => rfl
  · intro code reason hb; rw [hrun, hb]; rfl
  · intro reason hb; rw [hrun, hb]; rfl

/-- Witness for C2's amended theorem at a concrete catalog and network. -/
theorem execute_normalizes_outcomes_witness :
    (executeExternalApi loadsNone fetch404 (chars "https://api.example.com")
      Option.none opsPing (chars "Ping") (.dict []) (.dict []) .none).isSome = true :=
  (execute_normalizes_outcomes_of_mapping_path_params loadsNone fetch404
    (chars "https://api.example.com") Option.none opsPing (chars "Ping")
    (.dict []) (.dict []) .none opPing rfl (Or.inl rfl)).1

/-- C5. A string `path_params` or `query_params` that fails JSON decoding
is treated exactly as the empty mapping — the call proceeds identically —
and on a present operation the decode failure never aborts the call: the
executor still returns a string. -/
theorem execute_bad_json_params_empty_mapping
    (loads : List Char → Option PyVal) (fetch : HttpRequest → HttpOutcome)
    (base : List Char) (bearer : Option (List Char))
    (opsById : List (List Char × Operation)) (oid : List Char)
    (s s' : List Char) (pp qp rb : PyVal)
    (hs : loads s = Option.none) (hs' : loads s' = Option.none) :
    executeExternalApi loads fetch base bearer opsById oid (.str s) qp rb =
      executeExternalApi loads fetch base bearer opsById oid (.dict []) qp rb ∧
    executeExternalApi loads fetch base bearer opsById oid pp (.str s') rb =
      executeExternalApi loads fetch base bearer opsById oid pp (.dict []) rb ∧
    (∀ op, lookupStr opsById oid = some op →
      (executeExternalApi loads fetch base bearer opsById oid
        (.str s) (.str s') rb).isSome = true) := by
  refine ⟨?_, ?_, ?_⟩
  · cases hl : lookupStr opsById oid with
    | none => unfold executeExternalApi; rw [hl]
    | some op =>
      unfold executeExternalApi
      rw [hl]
      dsimp only
      rw [coerceParams_str_of_none hs, coerceParams_dict_nil]
  · cases hl : lookupStr opsById oid with
    | none => unfold executeExternalApi; rw [hl]
    | some op =>
      unfold executeExternalApi
      rw [hl]
      dsimp only
      rw [coerceParams_str_of_none hs', coerceParams_dict_nil]
  · intro op hop
    obtain ⟨req, hrun⟩ :=
      executeExternalApi_run loads fetch base bearer opsById oid
        (.str s) (.str s') rb op hop
        (by rw [coerceParams_str_of_none hs]; exact Or.inl rfl)
    rw [hrun]; rfl

/-- Witness for C5 at a concrete catalog, network and undecodable strings. -/
theorem execute_bad_json_params_witness :
    (executeExternalApi loadsNone fetchOk (chars "https://api.example.com")
      Option.none opsPing (chars "Ping") (.str (chars "nope"))
      (.str (chars "also nope")) .none).isSome = true :=
  (execute_bad_json_params_empty_mapping loadsNone fetchOk
    (chars "https://api.example.com") Option.none opsPing (chars "Ping")
    (chars "nope") (chars "also nope") .none .none .none rfl rfl).2.2 opPing rfl

/-- C7. An `operation_id` absent from the catalog mapping yields the
descriptive unknown-operation string, without consulting the network (the
result is the same for every `fetch`) and without raising; for a present
`operation_id` (and a well-typed `path_params`) the result is the
normalized outcome of the actual HTTP call, so the unknown-operation string
is never returned unless the network itself produces that exact text. -/
theorem execute_unknown_operation
    (loads : List Char → Option PyVal) (fetch fetch' : HttpRequest → HttpOutcome)
    (base : List Char) (bearer : Option (List Char))
    (opsById : List (List Char × Operation)) (oid : List Char)
    (pp qp rb : PyVal) :
    (lookupStr opsById oid = Option.none →
      executeExternalApi loads fetch base bearer opsById oid pp qp rb =
        some (unknownOperationMessage oid) ∧
      executeExternalApi loads fetch base bearer opsById oid pp qp rb =
        executeExternalApi loads fetch' base bearer opsById oid pp qp rb) ∧
    (∀ op, lookupStr opsById oid = some op →
      DictOrFalsy (coerceParams loads pp) →
      (∀ req, outcomeToResultString (fetch req) ≠ unknownOperationMessage oid) →
      executeExternalApi loads fetch base bearer opsById oid pp qp rb ≠
        some (unknownOperationMessage oid)) := by
  constructor
  · intro h
    constructor
    · unfold executeExternalApi; rw [h]
    · unfold executeExternalApi; rw [h]
  · intro op hop hpp hne heq
    obtain ⟨req, hrun⟩ :=
      executeExternalApi_run loads fetch base bearer opsById oid pp qp rb op hop hpp
    rw [hrun] at heq
    exact hne req (Option.some.inj heq)

/-- Witness for C7 at a concrete empty catalog. -/
theorem execute_unknown_operation_witness :
    executeExternalApi loadsNone fetchOk (chars "https://api.example.com")
      Option.none [] (chars "Nope") .none .none .none =
      some (unknownOperationMessage (chars "Nope")) :=
  ((execute_unknown_operation loadsNone fetchOk fetch404
    (chars "https://api.example.com") Option.none [] (chars "Nope")
    .none .none .none).1 rfl).1

/-- Lemma: `v or \x7b\x7d` is the empty dict whenever the result is falsy. -/
theorem pyOr_dict_nil_of_falsy {v : PyVal}
    (h : truthy (pyOr v (.dict [])) = false) : pyOr v (.dict []) = .dict [] := by
  unfold pyOr at h ⊢
  split at h
  · next ht => simp [ht] at h
  · next hf => rw [if_neg hf]

/-- Every `some` result of the shared reply handler has a truthy
`operation_id` and falsy `path_params`/`query_params` replaced by the
empty dict. -/
theorem resolveReply_some_inv (loads : List Char → Option PyVal)
    (content : Option (List Char)) (r : ResolvedCall)
    (h : resolveReply loads content = some r) :
    truthy r.operation_id = true ∧
    (truthy r.path_params = false → r.path_params = .dict []) ∧
    (truthy r.query_params = false → r.query_params = .dict []) := by
  unfold resolveReply at h
  cases hl : loads (extractJsonText (stripChars (content.getD []))) with
  | none => rw [hl] at h; exact absurd h (by simp)
  | some data =>
    rw [hl, Option.some_bind] at h
    by_cases ht : truthy (pyDictGet data (chars "operation_id"))
    · rw [if_neg (by simp [ht])] at h
      injection h with h'
      subst h'
      exact ⟨ht, fun hf => pyOr_dict_nil_of_falsy hf,
        fun hf => pyOr_dict_nil_of_falsy hf⟩
    · have hf : truthy (pyDictGet data (chars "operation_id")) = false :=
        Bool.eq_false_iff.mpr ht
      simp [hf] at h

/-- The shared reply handler on the concrete fenced hotel reply. -/
theorem resolveReply_fenced (loads : List Char → Option PyVal)
    (hfenced : loads hotelInnerC3 = some hotelObjC3) :
    resolveReply loads (some fencedReplyC3) = some hotelCallC3 := by
  unfold resolveReply
  simp only [Option.getD_some]
  rw [show extractJsonText (stripChars fencedReplyC3) = hotelInnerC3 from rfl,
    hfenced]
  rfl

/-- C3. Delegated-reasoning reply handling, for both the local and the
remote resolver: a reply wrapped in a markdown code fence has the substring
between the first `\x7b` and the last `\x7d` extracted and the enclosed
object's fields returned unchanged (shown on the concrete
`Settings_GetHotels` reply); a reply whose JSON decoding fails, a reply
whose `operation_id` is missing or falsy, and a transport failure all
yield no resolution rather than an error. -/
theorem resolver_reply_parsing (loads : List Char → Option PyVal)
    (hfenced : loads hotelInnerC3 = some hotelObjC3) :
    extractJsonText (stripChars fencedReplyC3) = hotelInnerC3 ∧
    (∀ ops : List Operation, ops ≠ [] →
      resolveOperationWithOllama loads ops (some (some fencedReplyC3)) =
        some hotelCallC3) ∧
    (∀ key : List Char, key ≠ [] → ∀ ops : List Operation, ops ≠ [] →
      resolveOperationWithOpenai loads (some key) ops (some (some fencedReplyC3)) =
        some hotelCallC3) ∧
    (∀ t : List Char, ∀ ops : List Operation,
      loads (extractJsonText (stripChars t)) = Option.none →
      resolveOperationWithOllama loads ops (some (some t)) = Option.none) ∧
    (∀ t : List Char, ∀ d : PyVal, ∀ ops : List Operation,
      loads (extractJsonText (stripChars t)) = some d →
      truthy (pyDictGet d (chars "operation_id")) = false →
      resolveOperationWithOllama loads ops (some (some t)) = Option.none) ∧
    (∀ ops, resolveOperationWithOllama loads ops Option.none = Option.none) ∧
    (∀ key ops,
      resolveOperationWithOpenai loads key ops Option.none = Option.none) := by
  refine ⟨rfl, ?_, ?_, ?_, ?_, ?_, ?_⟩
  · intro ops hne
    cases ops with
    | nil => exact absurd rfl hne
    | cons a l => exact resolveReply_fenced loads hfenced
  · intro key hkey ops hne
    cases ops with
    | nil => exact absurd rfl hne
    | cons a l =>
      cases key with
      | nil => exact absurd rfl hkey
      | cons c k =>
        show resolveReply loads (some fencedReplyC3) = some hotelCallC3
        exact resolveReply_fenced loads hfenced
  · intro t ops hnone
    cases ops with
    | nil => rfl
    | cons a l =>
      show resolveReply loads (some t) = Option.none
      unfold resolveReply
      simp only [Option.getD_some]
      rw [hnone]
      rfl
  · intro t d ops hd hfalsy
    cases ops with
    | nil => rfl
    | cons a l =>
      show resolveReply loads (some t) = Option.none
      unfold resolveReply
      simp only [Option.getD_some]
      rw [hd]
      simp [hfalsy]
  · intro ops; cases ops <;> rfl
  · intro key ops
    cases key with
    | none => rfl
    | some k => cases k <;> cases ops <;> rfl

/-- Witness for C3 at a concrete decoder and catalog. -/
theorem resolver_reply_parsing_witness :
    resolveOperationWithOllama loadsC3 [opPing] (some (some fencedReplyC3)) =
      some hotelCallC3 :=
  (resolver_reply_parsing loadsC3 rfl).2.1 [opPing] (by simp)

/-- C10 (counterexample). A reply whose `path_params` field is the truthy
non-mapping `5` resolves successfully with that value passed through
unchanged, so a non-`None` resolver result does not always carry mappings
in `path_params`/`query_params`. -/
theorem resolver_passes_numeric_path_params_through :
    resolveOperationWithOllama loadsC10 [opPing] (some (some replyC10)) =
      some callC10 ∧
    isDict callC10.path_params = false ∧
    truthy callC10.path_params = true :=
  ⟨rfl, rfl, rfl⟩

/-- C10 (amended). Every non-`None` result of either delegated-reasoning
resolver has a truthy `operation_id`, and its `path_params`/`query_params`
are never falsy non-mappings: a falsy reply value (null, missing, empty,
`false`, `0`) is replaced by the empty mapping, while a truthy value — even
a non-mapping — is passed through as found. -/
theorem resolver_result_invariants (loads : List Char → Option PyVal) :
    (∀ ops chat r, resolveOperationWithOllama loads ops chat = some r →
      truthy r.operation_id = true ∧
      (truthy r.path_params = false → r.path_params = .dict []) ∧
      (truthy r.query_params = false → r.query_params = .dict [])) ∧
    (∀ key ops chat r, resolveOperationWithOpenai loads key ops chat = some r →
      truthy r.operation_id = true ∧
      (truthy r.path_params = false → r.path_params = .dict []) ∧
      (truthy r.query_params = false → r.query_params = .dict [])) := by
  constructor
  · intro ops chat r h
    cases ops with
    | nil => exact absurd h (by simp [resolveOperationWithOllama])
    | cons a l =>
      cases chat with
      | none => exact absurd h (by simp [resolveOperationWithOllama])
      | some content => exact resolveReply_some_inv loads content r h
  · intro key ops chat r h
    cases key with
    | none => exact absurd h (by simp [resolveOperationWithOpenai])
    | some k =>
      cases k with
      | nil => exact absurd h (by simp [resolveOperationWithOpenai])
      | cons c t =>
        cases ops with
        | nil => exact absurd h (by simp [resolveOperationWithOpenai])
        | cons a l =>
          cases chat with
          | none => exact absurd h (by simp [resolveOperationWithOpenai])
          | some content => exact resolveReply_some_inv loads content r h

/-- Witness for C10's amended theorem at a concrete resolution. -/
theorem resolver_result_invariants_witness :
    truthy callC10.operation_id = true :=
  ((resolver_result_invariants loadsC10).1 [opPing] (some (some replyC10))
    callC10 rfl).1

/-- C8. On a non-empty tool list the keyword filter never returns an empty
tool set, and whenever the keyword classification leaves zero candidate
tools the unfiltered input list is returned. -/
theorem filter_never_returns_empty (tools : List Tool) (u : List Char)
    (opsById : List (List Char × Operation)) (h : tools ≠ []) :
    filterExternalToolsByQuery tools u opsById ≠ [] ∧
    (filterCandidates tools u opsById = [] →
      filterExternalToolsByQuery tools u opsById = tools) := by
  constructor
  · unfold filterExternalToolsByQuery
    split
    · exact h
    · split
      · exact h
      · split
        · exact h
        · next hne =>
            intro hc
            exact hne (by rw [hc]; rfl)
  · intro hc
    unfold filterExternalToolsByQuery
    split
    · rfl
    · split
      · rfl
      · split
        · rfl
        · next hne => exact absurd (by rw [hc]; rfl) hne

/-- Witness for C8 at a concrete non-empty tool list. -/
theorem filter_never_returns_empty_witness :
    filterExternalToolsByQuery [toolGetAirports] (chars "zzz") [] ≠ [] :=
  (filter_never_returns_empty [toolGetAirports] (chars "zzz") [] (by simp)).1

/-- Dict assignment with a fresh key appends. -/
theorem dictInsert_eq_append {α : Type} (k : List Char) (v : α) :
    ∀ kvs : List (List Char × α), k ∉ kvs.map Prod.fst →
      dictInsert kvs k v = kvs ++ [(k, v)] := by
  intro kvs
  induction kvs with
  | nil => intro _; rfl
  | cons kv rest ih =>
    intro h
    simp only [List.map_cons, List.mem_cons] at h
    push_neg at h
    unfold dictInsert
    rw [if_neg (fun he => h.1 he.symm)]
    rw [ih h.2]
    rfl

/-- The encoded parameter's `name` field. -/
theorem pyDictGet_encode_name (p : ParameterSpec) :
    pyDictGet (encodeParam p) (chars "name") = .str p.name := rfl

/-- The encoded parameter's `required` field. -/
theorem pyDictGet_encode_required (p : ParameterSpec) :
    pyDictGet (encodeParam p) (chars "required") = .bool p.required := rfl

/-- A nonempty string is truthy. -/
theorem truthy_str_of_ne {s : List Char} (h : s ≠ []) :
    truthy (.str s) = true := by
  cases s with
  | nil => exact absurd rfl h
  | cons c t => rfl

/-- Lemma: `.lower()` of the encoded `in` field is the (lower-case) location. -/
theorem locOfParam_encode (p : ParameterSpec) (hloc : p.location ≠ [])
    (hlower : lowerStr p.location = p.location) :
    locOfParam (encodeParam p) = some p.location := by
  unfold locOfParam
  rw [show pyOr (pyDictGet (encodeParam p) (chars "in")) (.str (chars "query")) =
      .str p.location by
    rw [show pyDictGet (encodeParam p) (chars "in") = .str p.location from rfl]
    unfold pyOr
    rw [if_pos (truthy_str_of_ne hloc)]]
  show some (lowerStr p.location) = some p.location
  rw [hlower]

/-- The schema-list filter keeps every encoded parameter with a nonempty
name. -/
theorem operationParamsSchemaList_encode (oid method path summary : List Char)
    (ps : List ParameterSpec) (hname : ∀ p ∈ ps, p.name ≠ []) :
    operationParamsSchemaList (mkCatalogOp oid method path summary ps) =
      ps.map encodeParam := by
  unfold operationParamsSchemaList mkCatalogOp
  dsimp only
  rw [List.filter_eq_self]
  intro a ha
  obtain ⟨p, hp, rfl⟩ := List.mem_map.mp ha
  rw [pyDictGet_encode_name]
  exact truthy_str_of_ne (hname p hp)

/-- Unfolding `specToolProperties` one parameter at a time. -/
theorem specToolProperties_cons (p : ParameterSpec) (rest : List ParameterSpec) :
    specToolProperties (p :: rest) =
      (if p.location == chars "path" || p.location == chars "query" then
        [(p.name, ⟨.str (p.type_hint.getD (chars "string")),
          p.location ++ chars " parameter"⟩)]
      else []) ++ specToolProperties rest := by
  unfold specToolProperties
  rw [List.filter_cons]
  split <;> simp

/-- Unfolding `specToolRequired` one parameter at a time. -/
theorem specToolRequired_cons (p : ParameterSpec) (rest : List ParameterSpec) :
    specToolRequired (p :: rest) =
      (if (p.location == chars "path" || p.location == chars "query") && p.required
        then [p.name] else []) ++ specToolRequired rest := by
  unfold specToolRequired
  rw [List.filter_cons]
  by_cases h1 : (p.location == chars "path" || p.location == chars "query") = true
  · rw [if_pos (by simpa using h1)]
    rw [List.filter_cons]
    by_cases h2 : p.required
    · rw [if_pos (by simpa using h2)]
      simp [h1, h2]
    · rw [if_neg (by simpa using h2)]
      simp [h1, h2]
  · rw [if_neg (by simpa using h1)]
    simp [h1]

/-- Unfolding `specPathParams` one parameter at a time. -/
theorem specPathParams_cons (p : ParameterSpec) (rest : List ParameterSpec)
    (argKvs : List (List Char × PyVal)) :
    specPathParams (p :: rest) argKvs =
      (if p.location == chars "path" then
        (match lookupStr argKvs p.name with
         | some v => [(p.name, v)]
         | Option.none => [])
      else []) ++ specPathParams rest argKvs := by
  by_cases hp : p.location = chars "path" <;>
    cases hv : lookupStr argKvs p.name <;>
      simp [specPathParams, List.filterMap_cons, hp, hv]

/-- Unfolding `specQueryParams` one parameter at a time. -/
theorem specQueryParams_cons (p : ParameterSpec) (rest : List ParameterSpec)
    (argKvs : List (List Char × PyVal)) :
    specQueryParams (p :: rest) argKvs =
      (if p.location == chars "query" then
        (match lookupStr argKvs p.name with
         | some v => [(p.name, v)]
         | Option.none => [])
      else []) ++ specQueryParams rest argKvs := by
  by_cases hp : p.location = chars "query" <;>
    cases hv : lookupStr argKvs p.name <;>
      simp [specQueryParams, List.filterMap_cons, hp, hv]

/-- Truthiness of an embedded boolean. -/
theorem truthy_bool (b : Bool) : truthy (.bool b) = b := rfl

/-- The encoded parameter's `schema` field, after the `or \x7b\x7d`
defaulting. -/
theorem pyOr_encode_schema (p : ParameterSpec) :
    pyOr (pyDictGet (encodeParam p) (chars "schema")) (.dict []) =
      .dict (match p.type_hint with
             | some t => [(chars "type", PyVal.str t)]
             | Option.none => []) := by
  obtain ⟨n, l, r, th⟩ := p
  cases th <;> rfl

/-- The `schema.get("type") or "string"` defaulting on an encoded
parameter. -/
theorem propType_encode (p : ParameterSpec) (hth : p.type_hint ≠ some []) :
    pyOr ((lookupStr (match p.type_hint with
        | some t => [(chars "type", PyVal.str t)]
        | Option.none => []) (chars "type")).getD .none) (.str (chars "string")) =
      .str (p.type_hint.getD (chars "string")) := by
  cases hth' : p.type_hint with
  | none => rfl
  | some t =>
    have ht : t ≠ [] := fun he => hth (by rw [hth', he])
    show pyOr (.str t) (.str (chars "string")) = .str t
    unfold pyOr
    rw [if_pos (truthy_str_of_ne ht)]

/-- One step of the tool-parameter loop on an encoded parameter. -/
theorem toolParamsLoop_cons_encode (p : ParameterSpec) (xs : List PyVal)
    (props : List (List Char × PropSpec)) (req : List (List Char))
    (hname : p.name ≠ []) (hloc : p.location ≠ [])
    (hlower : lowerStr p.location = p.location) (hth : p.type_hint ≠ some []) :
    toolParamsLoop (encodeParam p :: xs) props req =
      if p.location == chars "path" || p.location == chars "query" then
        toolParamsLoop xs
          (dictInsert props p.name
            ⟨.str (p.type_hint.getD (chars "string")),
              p.location ++ chars " parameter"⟩)
          (if p.required then req ++ [p.name] else req)
      else toolParamsLoop xs props req := by
  have hn : p.name.isEmpty = false := by
    cases hcn : p.name
    · exact absurd hcn hname
    · rfl
  by_cases h1 : p.location = chars "path"
  · simp [toolParamsLoop, locOfParam_encode p hloc hlower, h1, hn,
      pyDictGet_encode_name, pyDictGet_encode_required,
      pyOr_encode_schema p, propType_encode p hth, truthy_bool]
  · by_cases h2 : p.location = chars "query"
    · simp [toolParamsLoop, locOfParam_encode p hloc hlower, h2, hn,
        pyDictGet_encode_name, pyDictGet_encode_required,
        pyOr_encode_schema p, propType_encode p hth, truthy_bool]
    · simp [toolParamsLoop, locOfParam_encode p hloc hlower, h1, h2, hn,
        pyDictGet_encode_name, pyDictGet_encode_required,
        pyOr_encode_schema p, propType_encode p hth, truthy_bool]

/-- The tool-parameter loop on a whole encoded parameter list refines the
spec-side properties/required lists, relative to fresh accumulators. -/
theorem toolParamsLoop_encode :
    ∀ (ps : List ParameterSpec) (props : List (List Char × PropSpec))
      (req : List (List Char)),
      (∀ p ∈ ps, p.name ≠ [] ∧ p.location ≠ [] ∧
        lowerStr p.location = p.location ∧ p.type_hint ≠ some []) →
      (ps.map (·.name)).Nodup →
      (∀ p ∈ ps, p.name ∉ props.map Prod.fst) →
      toolParamsLoop (ps.map encodeParam) props req =
        some (props ++ specToolProperties ps, req ++ specToolRequired ps) := by
  intro ps
  induction ps with
  | nil =>
    intro props req _ _ _
    simp [toolParamsLoop, specToolProperties, specToolRequired]
  | cons p rest ih =>
    intro props req hall hnd hfresh
    have hp := hall p (List.mem_cons_self p rest)
    rw [List.map_cons,
      toolParamsLoop_cons_encode p _ props req hp.1 hp.2.1 hp.2.2.1 hp.2.2.2,
      specToolProperties_cons, specToolRequired_cons]
    have hnd' : (rest.map (·.name)).Nodup := (List.nodup_cons.mp hnd).2
    have hpnotin : p.name ∉ rest.map (·.name) := (List.nodup_cons.mp hnd).1
    by_cases hpq : (p.location == chars "path" || p.location == chars "query") = true
    · rw [if_pos hpq,
        dictInsert_eq_append p.name _ props (hfresh p (List.mem_cons_self p rest))]
      rw [ih (props ++ [(p.name, _)]) _
        (fun q hq => hall q (List.mem_cons_of_mem p hq)) hnd' ?fresh]
      case fresh =>
        intro q hq
        simp only [List.map_append, List.mem_append, List.map_cons]
        rintro (hmem | hmem)
        · exact hfresh q (List.mem_cons_of_mem p hq) hmem
        · simp only [List.map_nil, List.mem_singleton] at hmem
          exact hpnotin (hmem ▸ List.mem_map.mpr ⟨q, hq, rfl⟩)
      by_cases hr : p.required <;> simp [hpq, hr, List.append_assoc]
    · rw [if_neg hpq,
        ih props req (fun q hq => hall q (List.mem_cons_of_mem p hq)) hnd'
          (fun q hq => hfresh q (List.mem_cons_of_mem p hq))]
      simp [hpq]

/-- One step of the argument-split loop on an encoded parameter whose value
is absent from the flat args. -/
theorem argsSplitLoop_cons_encode_none (argKvs : List (List Char × PyVal))
    (p : ParameterSpec) (xs : List PyVal)
    (pp qp : List (List Char × PyVal))
    (hloc : p.location ≠ []) (hlower : lowerStr p.location = p.location)
    (hv : lookupStr argKvs p.name = Option.none) :
    argsSplitLoop argKvs (encodeParam p :: xs) pp qp =
      argsSplitLoop argKvs xs pp qp := by
  simp [argsSplitLoop, locOfParam_encode p hloc hlower,
    pyDictGet_encode_name, hv]

/-- One step of the argument-split loop on an encoded parameter whose value
is present in the flat args. -/
theorem argsSplitLoop_cons_encode_some (argKvs : List (List Char × PyVal))
    (p : ParameterSpec) (xs : List PyVal) (v : PyVal)
    (pp qp : List (List Char × PyVal))
    (hloc : p.location ≠ []) (hlower : lowerStr p.location = p.location)
    (hv : lookupStr argKvs p.name = some v) :
    argsSplitLoop argKvs (encodeParam p :: xs) pp qp =
      if p.location == chars "path" then
        argsSplitLoop argKvs xs (dictInsert pp p.name v) qp
      else if p.location == chars "query" then
        argsSplitLoop argKvs xs pp (dictInsert qp p.name v)
      else argsSplitLoop argKvs xs pp qp := by
  simp [argsSplitLoop, locOfParam_encode p hloc hlower,
    pyDictGet_encode_name, hv]

/-- The argument-split loop on a whole encoded parameter list refines the
spec-side path/query routing, relative to fresh accumulators. -/
theorem argsSplitLoop_encode (argKvs : List (List Char × PyVal)) :
    ∀ (ps : List ParameterSpec) (pp qp : List (List Char × PyVal)),
      (∀ p ∈ ps, p.name ≠ [] ∧ p.location ≠ [] ∧
        lowerStr p.location = p.location ∧ p.type_hint ≠ some []) →
      (ps.map (·.name)).Nodup →
      (∀ p ∈ ps, p.name ∉ pp.map Prod.fst ∧ p.name ∉ qp.map Prod.fst) →
      argsSplitLoop argKvs (ps.map encodeParam) pp qp =
        some (pp ++ specPathParams ps argKvs, qp ++ specQueryParams ps argKvs) := by
  intro ps
  induction ps with
  | nil =>
    intro pp qp _ _ _
    simp [argsSplitLoop, specPathParams, specQueryParams]
  | cons p rest ih =>
    intro pp qp hall hnd hfresh
    have hp := hall p (List.mem_cons_self p rest)
    rw [List.map_cons, specPathParams_cons, specQueryParams_cons]
    have hnd' : (rest.map (·.name)).Nodup := (List.nodup_cons.mp hnd).2
    have hpnotin : p.name ∉ rest.map (·.name) := (List.nodup_cons.mp hnd).1
    have hall' : ∀ q ∈ rest, q.name ≠ [] ∧ q.location ≠ [] ∧
        lowerStr q.location = q.location ∧ q.type_hint ≠ some [] :=
      fun q hq => hall q (List.mem_cons_of_mem p hq)
    have hne : ∀ q ∈ rest, q.name ≠ p.name := fun q hq he =>
      hpnotin (he ▸ List.mem_map.mpr ⟨q, hq, rfl⟩)
    cases hv : lookupStr argKvs p.name with
    | none =>
      rw [argsSplitLoop_cons_encode_none argKvs p _ pp qp hp.2.1 hp.2.2.1 hv,
        ih pp qp hall' hnd' (fun q hq => hfresh q (List.mem_cons_of_mem p hq))]
      simp [hv]
    | some v =>
      rw [argsSplitLoop_cons_encode_some argKvs p _ v pp qp hp.2.1 hp.2.2.1 hv]
      by_cases h1 : p.location = chars "path"
      · rw [if_pos (by simp [h1]),
          dictInsert_eq_append p.name v pp
            (hfresh p (List.mem_cons_self p rest)).1,
          ih (pp ++ [(p.name, v)]) qp hall' hnd' ?fresh]
        case fresh =>
          intro q hq
          refine ⟨?_, (hfresh q (List.mem_cons_of_mem p hq)).2⟩
          simp only [List.map_append, List.mem_append]
          rintro (hmem | hmem)
          · exact (hfresh q (List.mem_cons_of_mem p hq)).1 hmem
          · simp only [List.map_cons, List.map_nil, List.mem_singleton] at hmem
            exact hne q hq hmem
        simp [h1, hv, List.append_assoc]
        decide
      · by_cases h2 : p.location = chars "query"
        · rw [if_neg (by simp [h1]), if_pos (by simp [h2]),
            dictInsert_eq_append p.name v qp
              (hfresh p (List.mem_cons_self p rest)).2,
            ih pp (qp ++ [(p.name, v)]) hall' hnd' ?fresh]
          case fresh =>
            intro q hq
            refine ⟨(hfresh q (List.mem_cons_of_mem p hq)).1, ?_⟩
            simp only [List.map_append, List.mem_append]
            rintro (hmem | hmem)
            · exact (hfresh q (List.mem_cons_of_mem p hq)).2 hmem
            · simp only [List.map_cons, List.map_nil, List.mem_singleton] at hmem
              exact hne q hq hmem
          simp [h1, h2, hv, List.append_assoc]
          decide
        · rw [if_neg (by simp [h1]), if_neg (by simp [h2]),
            ih pp qp hall' hnd'
              (fun q hq => hfresh q (List.mem_cons_of_mem p hq))]
          simp [h1, h2, hv]

/-- Every key of the spec-side properties is a parameter name. -/
theorem specToolProperties_keys_sub (ps : List ParameterSpec) :
    ∀ k ∈ (specToolProperties ps).map Prod.fst, k ∈ ps.map (·.name) := by
  intro k hk
  simp only [specToolProperties, List.map_map, List.mem_map,
    Function.comp] at hk
  obtain ⟨p, hp, hkk⟩ := hk
  exact List.mem_map.mpr ⟨p, (List.mem_filter.mp hp).1, hkk⟩

/-- Lemma: `_tool_parameters_from_operation` on an encoded catalog operation
computes exactly the spec-side argument schema. -/
theorem toolParametersFromOperation_encode (oid method path summary : List Char)
    (ps : List ParameterSpec) (hwf : WellFormedSpecParams ps) :
    toolParametersFromOperation (mkCatalogOp oid method path summary ps) =
      some (specToolParameters ps (upperStr method)) := by
  obtain ⟨hall, hnd, hrb⟩ := hwf
  unfold toolParametersFromOperation
  rw [operationParamsSchemaList_encode oid method path summary ps
      (fun p hp => (hall p hp).1),
    toolParamsLoop_encode ps [] [] hall hnd (by simp)]
  by_cases hb : isBodyMethod (upperStr method) = true <;>
    simp [mkCatalogOp, hb, specToolParameters,
      dictInsert_eq_append (chars "request_body") requestBodyProp
        (specToolProperties ps)
        (fun hmem => hrb (specToolProperties_keys_sub ps _ hmem))]

/-- Lemma: `specPathParams` over an empty argument mapping is empty. -/
theorem specPathParams_nil (ps : List ParameterSpec) :
    specPathParams ps [] = [] := by
  induction ps with
  | nil => rfl
  | cons p rest ih =>
    rw [specPathParams_cons]
    simp [lookupStr, ih]

/-- Lemma: `specQueryParams` over an empty argument mapping is empty. -/
theorem specQueryParams_nil (ps : List ParameterSpec) :
    specQueryParams ps [] = [] := by
  induction ps with
  | nil => rfl
  | cons p rest ih =>
    rw [specQueryParams_cons]
    simp [lookupStr, ih]

/-- A schema without path-located parameters contributes no path
components. -/
theorem specPathParams_eq_nil_of_no_path (ps : List ParameterSpec)
    (argKvs : List (List Char × PyVal))
    (h : ∀ p ∈ ps, p.location ≠ chars "path") :
    specPathParams ps argKvs = [] := by
  induction ps with
  | nil => rfl
  | cons p rest ih =>
    rw [specPathParams_cons,
      if_neg (by simpa using h p (List.mem_cons_self p rest))]
    simp only [List.nil_append]
    exact ih (fun q hq => h q (List.mem_cons_of_mem p hq))

/-- C4. The argument splitter refines the spec: it is total on the spec's
data model (no failure), routes exactly the schema parameters present in
the flat args to path/query by location, invents no defaults, silently
drops unknown keys, treats a non-mapping argument value as empty, and
yields empty `path_params` for every operation without path parameters. -/
theorem args_split_refines_spec (oid method path summary : List Char)
    (ps : List ParameterSpec) (args : PyVal) (hwf : WellFormedSpecParams ps) :
    argsToRequestParts (mkCatalogOp oid method path summary ps) args =
      some (specPathParams ps (argsDict args), specQueryParams ps (argsDict args),
        requestBodyFromArgs (argsDict args)) ∧
    (isDict args = false →
      argsToRequestParts (mkCatalogOp oid method path summary ps) args =
        some ([], [], PyVal.none)) ∧
    ((∀ p ∈ ps, p.location ≠ chars "path") →
      specPathParams ps (argsDict args) = []) := by
  obtain ⟨hall, hnd, hrb⟩ := hwf
  have h1 : argsToRequestParts (mkCatalogOp oid method path summary ps) args =
      some (specPathParams ps (argsDict args), specQueryParams ps (argsDict args),
        requestBodyFromArgs (argsDict args)) := by
    unfold argsToRequestParts
    rw [operationParamsSchemaList_encode oid method path summary ps
        (fun p hp => (hall p hp).1),
      argsSplitLoop_encode (argsDict args) ps [] [] hall hnd (by simp)]
    simp
  refine ⟨h1, ?_, ?_⟩
  · intro hnotdict
    rw [h1]
    have hag : argsDict args = [] := by
      cases args <;> simp [argsDict, isDict] at hnotdict ⊢
    rw [hag, specPathParams_nil, specQueryParams_nil]
    rfl
  · exact specPathParams_eq_nil_of_no_path ps (argsDict args)

/-- Witness for C4 at a concrete operation and argument mapping: the
`airportId` path value is routed, the unknown key is dropped, and no
request body is found. -/
theorem args_split_refines_spec_witness :
    argsToRequestParts (rowOp rowPassengers) passengersArgs =
      some ([(chars "airportId", .str (chars "A1"))], [], PyVal.none) :=
  ((args_split_refines_spec (chars "Airports_GetPassengers") (chars "GET")
    (chars "/airports/\x7bairportId\x7d/passengers") [] rowPassengers.params
    passengersArgs (by unfold WellFormedSpecParams; decide)).1).trans (by rfl)

/-- C9. Per-operation tool synthesis refines the spec: one tool per catalog
operation, named by the operation id, whose argument schema lists exactly
that operation's path/query parameters (other locations excluded) typed by
their schema type defaulted to `string`, with a generic `request_body` key
exactly for POST/PUT/PATCH, and with `required` marking exactly the
required-flagged parameters. -/
theorem tool_synthesis_refines_spec (rows : List CatalogRow)
    (hid : ∀ r ∈ rows, r.oid ≠ [])
    (hwf : ∀ r ∈ rows, WellFormedSpecParams r.params) :
    buildDynamicToolsFromOperations (rows.map rowOp) =
      some (rows.map rowTool) := by
  induction rows with
  | nil => rfl
  | cons r rest ih =>
    rw [List.map_cons, List.map_cons]
    unfold buildDynamicToolsFromOperations
    have hoid : (rowOp r).operation_id.isEmpty = false := by
      have := hid r (List.mem_cons_self r rest)
      cases hc : r.oid with
      | nil => exact absurd hc this
      | cons c t => simp [rowOp, mkCatalogOp, hc]
    rw [if_neg (by simp [hoid])]
    have htp : toolParametersFromOperation (rowOp r) =
        some (specToolParameters r.params (upperStr r.method)) :=
      toolParametersFromOperation_encode r.oid r.method r.path r.summary
        r.params (hwf r (List.mem_cons_self r rest))
    rw [htp, ih (fun q hq => hid q (List.mem_cons_of_mem r hq))
      (fun q hq => hwf q (List.mem_cons_of_mem r hq))]
    rfl

/-- Witness for C9 at a concrete one-row catalog. -/
theorem tool_synthesis_refines_spec_witness :
    buildDynamicToolsFromOperations [rowOp rowPassengers] =
      some [rowTool rowPassengers] :=
  tool_synthesis_refines_spec [rowPassengers] (by decide)
    (by intro q hq
        rw [List.mem_singleton] at hq
        subst hq
        unfold WellFormedSpecParams
        decide)

end Gateway

